import Mathlib

/-
Verification of the kube-eleven cluster-build logic
(services/kube-eleven/server/domain/utils/kube-eleven/kube_eleven.go).

Go strings are modelled as lists of characters (`Str`), protobuf messages as
structures, and the in-place mutation of a node's role through a pointer as a
positional update (`promoteAt`) of the node-pool list.  External collaborators
whose code is not part of the analysed sources (the template engine and file
writes inside generateFiles, kubeone.Apply, readKubeconfigFromFile,
os.RemoveAll) are modelled as an oracle `Env` recording their outcomes.
-/

/-- Go strings (byte sequences) are embedded as lists of characters. -/
abbrev Str := List Char

/-- pb.NodeType: worker, master, apiEndpoint. -/
inductive NodeType where
  | worker
  | master
  | apiEndpoint
deriving DecidableEq

/-- pb.Node: full name, public address, mutable role tag. -/
structure Node where
  name : Str
  public : Str
  nodeType : NodeType
deriving DecidableEq

/-- pb.Provider (the fields read by getClusterNodes). -/
structure Provider where
  cloudProviderName : Str
  specName : Str
deriving DecidableEq

/-- pb.NodePool (the fields read by getClusterNodes). -/
structure NodePool where
  name : Str
  region : Str
  zone : Str
  provider : Provider
  nodes : List Node
deriving DecidableEq

/-- pb.ClusterInfo: name, hash and node pools of a Kubernetes cluster. -/
structure ClusterInfo where
  name : Str
  hash : Str
  nodePools : List NodePool
deriving DecidableEq

/-- pb.K8Scluster: cluster info plus the mutable kubeconfig blob and version. -/
structure K8sCluster where
  clusterInfo : ClusterInfo
  kubeconfig : Str
  kubernetes : Str
deriving DecidableEq

/-- pb.RoleType: only ApiServer matters to this unit; Ingress is the other one. -/
inductive RoleType where
  | apiServer
  | ingress
deriving DecidableEq

/-- pb.Role (the field read by findAPIEndpoint). -/
structure Role where
  roleType : RoleType
deriving DecidableEq

/-- pb.DNS (the field read by findAPIEndpoint). -/
structure Dns where
  endpoint : Str
deriving DecidableEq

/-- pb.LBcluster: target cluster name, DNS record and roles. -/
structure LBcluster where
  targetedK8S : Str
  dns : Dns
  roles : List Role
deriving DecidableEq

/-- The KubeEleven receiver: target cluster and attached LB clusters. -/
structure KubeEleven where
  k8sCluster : K8sCluster
  lbClusters : List LBcluster
deriving DecidableEq

/-- Replace the element at a given index by applying `f`; out of range is a no-op.
This models a write through a Go pointer into a slice element. -/
def modifyAt (f : α → α) : List α → Nat → List α
  | [], _ => []
  | x :: xs, 0 => f x :: xs
  | x :: xs, n + 1 => x :: modifyAt f xs n

/-- strings.TrimPrefix: returns `s` without the leading `p`; `s` unchanged when
`p` is not a leading part of `s`. -/
def trimPrefix (p s : Str) : Str :=
  if p.isPrefixOf s then s.drop p.length else s

/-- Modelled from the spec: `sanitiseString` is called by getClusterNodes but its
body is not among the analysed sources; the spec says string fields used as
template identifiers are "sanitized to a token-safe form (non-alphanumeric
characters normalized)".  We normalize every non-alphanumeric character to a
hyphen. -/
def sanitiseString (s : Str) : Str :=
  s.map (fun c => if c.isAlphanum then c else '-')

/-- NodeInfo view-model entry: display name plus the underlying node. -/
structure NodeInfo where
  name : Str
  node : Node
deriving DecidableEq

/-- NodepoolInfo view-model entry built by getClusterNodes. -/
structure NodepoolInfo where
  nodepoolName : Str
  region : Str
  zone : Str
  cloudProviderName : Str
  providerName : Str
  nodes : List NodeInfo
deriving DecidableEq

/-- fmt.Sprintf("%s-%s-", name, hash): the literal node-name lead-in stripped by
getClusterNodes. -/
def namePrefix (ci : ClusterInfo) : Str :=
  ci.name ++ '-' :: ci.hash ++ ['-']

/-- Body of the per-pool loop of getClusterNodes that fills NodepoolInfo. -/
def mkNodepoolInfo (pfx : Str) (np : NodePool) : NodepoolInfo :=
  { nodepoolName := np.name
    region := sanitiseString np.region
    zone := sanitiseString np.zone
    cloudProviderName := sanitiseString np.provider.cloudProviderName
    providerName := sanitiseString np.provider.specName
    nodes := np.nodes.map (fun node => { name := trimPrefix pfx node.name, node := node }) }

/-- Nodes of one pool in scan order, tagged with the pool index `i` and node
indices counting from `j`. -/
def enumNodeList (i j : Nat) : List Node → List (Nat × Nat × Node)
  | [] => []
  | n :: ns => (i, j, n) :: enumNodeList i (j + 1) ns

/-- All nodes of the pools in pool-then-node order, tagged with their position;
pool indices count from `b`. -/
def enumPools (b : Nat) : List NodePool → List (Nat × Nat × Node)
  | [] => []
  | p :: ps => enumNodeList b 0 p.nodes ++ enumPools (b + 1) ps

/-- The traversal order of the nested loops of getClusterNodes. -/
def enumNodes (pools : List NodePool) : List (Nat × Nat × Node) :=
  enumPools 0 pools

/-- One step of the candidate-tracking logic inside getClusterNodes:
an api-endpoint node always becomes the candidate; a master only when no
candidate is held yet. -/
def updateCandidate (cand : Option (Nat × Nat × Node)) (i j : Nat) (node : Node) :
    Option (Nat × Nat × Node) :=
  if node.nodeType = NodeType.apiEndpoint then some (i, j, node)
  else if node.nodeType = NodeType.master ∧ cand = none then some (i, j, node)
  else cand

/-- The candidate left after scanning all nodes in pool-then-node order. -/
def scanCandidate : List (Nat × Nat × Node) → Option (Nat × Nat × Node) → Option (Nat × Nat × Node)
  | [], cand => cand
  | (i, j, node) :: rest, cand => scanCandidate rest (updateCandidate cand i j node)

/-- getClusterNodes: builds the NodepoolInfo slice and the potential endpoint
node (here: its position and value). -/
def getClusterNodes (k : KubeEleven) : List NodepoolInfo × Option (Nat × Nat × Node) :=
  (k.k8sCluster.clusterInfo.nodePools.map (mkNodepoolInfo (namePrefix k.k8sCluster.clusterInfo)),
   scanCandidate (enumNodes k.k8sCluster.clusterInfo.nodePools) none)

/-- Whether a role is of type ApiServer. -/
def Role.isApiServer (r : Role) : Bool :=
  match r.roleType with
  | RoleType.apiServer => true
  | RoleType.ingress => false

/-- The LB-cluster loop of findAPIEndpoint: returns the DNS endpoint of the
first attached LB cluster that targets this cluster and carries an ApiServer
role. -/
def findApiServerLB (clusterName : Str) : List LBcluster → Option Str
  | [] => none
  | lb :: rest =>
    if lb.targetedK8S = clusterName ∧ lb.roles.any Role.isApiServer = true then
      some lb.dns.endpoint
    else findApiServerLB clusterName rest

/-- Write of NodeType through the candidate pointer. -/
def setNodeType (t : NodeType) (n : Node) : Node :=
  { n with nodeType := t }

/-- The mutation `potentialEndpointNode.NodeType = pb.NodeType_apiEndpoint`
performed through a pointer in Go, modelled positionally. -/
def promoteAt (pools : List NodePool) (i j : Nat) : List NodePool :=
  modifyAt (fun p => { p with nodes := modifyAt (setNodeType NodeType.apiEndpoint) p.nodes j }) pools i

/-- findAPIEndpoint: LB clusters first; otherwise the potential endpoint node is
promoted and its public address returned; otherwise the empty string (the Go
code only logs in that case and still returns normally).  The second component
is the node-pool list after the possible role mutation. -/
def findAPIEndpoint (k : KubeEleven) (cand : Option (Nat × Nat × Node)) : Str × List NodePool :=
  let pools := k.k8sCluster.clusterInfo.nodePools
  match findApiServerLB k.k8sCluster.clusterInfo.name k.lbClusters with
  | some dns => (dns, pools)
  | none =>
    match cand with
    | some (i, j, node) => (node.public, promoteAt pools i j)
    | none => ([], pools)

/-- Endpoint resolution as performed by generateTemplateData: scan the pools for
the potential endpoint node, then resolve. -/
def resolveEndpoint (k : KubeEleven) : Str × List NodePool :=
  findAPIEndpoint k (getClusterNodes k).2

/-- Replace the node pools of the receiver's cluster. -/
def withPools (k : KubeEleven) (pools : List NodePool) : KubeEleven :=
  { k with k8sCluster := { k.k8sCluster with clusterInfo := { k.k8sCluster.clusterInfo with nodePools := pools } } }

/-- templateData consumed by the kubeone manifest template. -/
structure TemplateData where
  nodepools : List NodepoolInfo
  apiEndpoint : Str
  kubernetesVersion : Str
  clusterName : Str
deriving DecidableEq

/-- generateTemplateData.  In Go the NodepoolInfos alias the nodes mutated by
findAPIEndpoint, so the view reflects the promotion; the functional model
reproduces this by projecting the infos from the updated pools. -/
def generateTemplateData (k : KubeEleven) : TemplateData × List NodePool :=
  let r := resolveEndpoint k
  ({ nodepools := r.2.map (mkNodepoolInfo (namePrefix k.k8sCluster.clusterInfo))
     apiEndpoint := r.1
     kubernetesVersion := k.k8sCluster.kubernetes
     clusterName := k.k8sCluster.clusterInfo.name }, r.2)

/-- Entry predicate: the node carries the api-endpoint tag. -/
def entryIsApiEndpoint (x : Nat × Nat × Node) : Bool :=
  decide (x.2.2.nodeType = NodeType.apiEndpoint)

/-- Entry predicate: the node carries the master tag. -/
def entryIsMaster (x : Nat × Nat × Node) : Bool :=
  decide (x.2.2.nodeType = NodeType.master)

/-- Number of api-endpoint-tagged nodes across all pools. -/
def countApiEndpoint (pools : List NodePool) : Nat :=
  (enumNodes pools).countP entryIsApiEndpoint

/-- Constant baseDirectory = "services/kube-eleven/server". -/
def baseDirectory : Str := "services/kube-eleven/server".data

/-- Constant outputDirectory = "clusters". -/
def outputDirectory : Str := "clusters".data

/-- fmt.Sprintf("%s-%s", name, hash): the build identifier. -/
def clusterID (ci : ClusterInfo) : Str :=
  ci.name ++ '-' :: ci.hash

/-- Prepend a character to the first chunk of a split result. -/
def consHead (c : Char) : List Str → List Str
  | [] => [[c]]
  | s :: ss => (c :: s) :: ss

/-- Split on a separator character, keeping empty chunks (a run of separators
yields empty chunks that Clean later drops). -/
def splitOnChar (sep : Char) : Str → List Str
  | [] => [[]]
  | c :: rest =>
    if c = sep then [] :: splitOnChar sep rest
    else consHead c (splitOnChar sep rest)

/-- One element step of Go filepath.Clean: an empty chunk (run of separators)
or a "." element is dropped; a ".." element pops the preceding element when one
exists and is not itself "..", is dropped at the root, and is kept at the start
of a relative path; any other element is pushed.  `stack` holds the processed
elements in reverse order. -/
def cleanPush (rooted : Bool) (stack : List Str) (elem : Str) : List Str :=
  if elem = [] ∨ elem = ['.'] then stack
  else if elem = ['.', '.'] then
    match stack with
    | [] => if rooted then [] else [elem]
    | top :: rest => if top = ['.', '.'] then elem :: stack else rest
  else elem :: stack

/-- Join path elements with the separator. -/
def joinElems (sep : Char) : List Str → Str
  | [] => []
  | [e] => e
  | e :: es => e ++ sep :: joinElems sep es

/-- Go path/filepath Clean with the Unix separator, by its documented rules:
replace runs of separators by a single one, drop "." elements, resolve ".."
elements against the preceding element (keeping leading ".." in a relative
path, dropping it at the root), drop a trailing separator, and return "." when
the result would be empty. -/
def clean (path : Str) : Str :=
  if path = [] then ['.']
  else
    let rooted : Bool := path.head? = some '/'
    let stack := (splitOnChar '/' path).foldl (cleanPush rooted) []
    let body := joinElems '/' stack.reverse
    if rooted then '/' :: body
    else if body = [] then ['.']
    else body

/-- filepath.Join(baseDirectory, outputDirectory, clusterID): the components
joined with the separator, then Cleaned, exactly as Go's filepath.Join does.
(Join skips empty components; none occurs here, the constants are non-empty and
clusterID always contains a hyphen.) -/
def workingDirectory (ci : ClusterInfo) : Str :=
  clean (baseDirectory ++ '/' :: outputDirectory ++ '/' :: clusterID ci)

/-- Wrapped errors produced by BuildCluster; each constructor records the
context the corresponding fmt.Errorf interpolates before the wrapped cause. -/
inductive BuildError where
  | generateFiles (clusterName : Str) (cause : Str)
  | kubeoneApply (workdir : Str) (cause : Str)
  | readKubeconfig (workdir : Str) (cause : Str)
  | removeFiles (workdir : Str) (cause : Str)
deriving DecidableEq

/-- Modelled from the spec: outcomes of the external collaborators invoked by
BuildCluster whose code is not among the analysed sources.  `generateFilesResult`
covers the template engine and file writes inside generateFiles, `applyResult`
the kubeone invocation, `readResult` readKubeconfigFromFile (per the spec a
missing file is an error, an empty but present file yields the empty string with
no error), and `removeResult` os.RemoveAll.  `none` and `Except.ok` mean
success. -/
structure Env where
  generateFilesResult : Option Str
  applyResult : Option Str
  readResult : Except Str Str
  removeResult : Option Str

/-- Observable outcome of one BuildCluster call: the returned error (none on
success), the cluster's kubeconfig field afterwards, and whether the working
directory was removed. -/
structure BuildOutcome where
  result : Option BuildError
  kubeconfig : Str
  dirRemoved : Bool
deriving DecidableEq

/-- BuildCluster: generate files, run kubeone apply, read the kubeconfig back
(only overwriting the cluster's field when non-empty), then remove the working
directory.  Each failure returns a wrapped error immediately, leaving the
directory in place and the kubeconfig field as it was at that point. -/
def buildCluster (env : Env) (k : KubeEleven) : BuildOutcome :=
  let ci := k.k8sCluster.clusterInfo
  let outDir := workingDirectory ci
  match env.generateFilesResult with
  | some e => ⟨some (BuildError.generateFiles ci.name e), k.k8sCluster.kubeconfig, false⟩
  | none =>
    match env.applyResult with
    | some e => ⟨some (BuildError.kubeoneApply outDir e), k.k8sCluster.kubeconfig, false⟩
    | none =>
      match env.readResult with
      | Except.error e => ⟨some (BuildError.readKubeconfig outDir e), k.k8sCluster.kubeconfig, false⟩
      | Except.ok s =>
        let kc := if 0 < s.length then s else k.k8sCluster.kubeconfig
        match env.removeResult with
        | some e => ⟨some (BuildError.removeFiles outDir e), kc, false⟩
        | none => ⟨none, kc, true⟩

/-- Sample provider used by the concrete test clusters. -/
def exProvider : Provider := ⟨"gcp".data, "gcp-1".data⟩

/-- Sample node pool holding the given nodes. -/
def exPool (nodes : List Node) : NodePool :=
  ⟨"pool1".data, "eu-west-2".data, "eu-west-2a".data, exProvider, nodes⟩

/-- Sample cluster named c1/h1 with the given pools and attached LB clusters. -/
def exCluster (pools : List NodePool) (lbs : List LBcluster) : KubeEleven :=
  ⟨⟨⟨"c1".data, "h1".data, pools⟩, "oldkubeconfig".data, "v1.24.0".data⟩, lbs⟩

/-- An LB cluster targeting c1 with an ApiServer role. -/
def exLBApi : LBcluster := ⟨"c1".data, ⟨"lb.example.com".data⟩, [⟨RoleType.apiServer⟩]⟩

/-- An LB cluster targeting c1 with only an Ingress role. -/
def exLBIngress : LBcluster := ⟨"c1".data, ⟨"ingress.example.com".data⟩, [⟨RoleType.ingress⟩]⟩

/-- A worker node. -/
def exNodeWorker : Node := ⟨"c1-h1-w1".data, "10.0.0.1".data, NodeType.worker⟩

/-- A first master node. -/
def exNodeMaster1 : Node := ⟨"c1-h1-m1".data, "1.2.3.4".data, NodeType.master⟩

/-- A second master node. -/
def exNodeMaster2 : Node := ⟨"c1-h1-m2".data, "5.6.7.8".data, NodeType.master⟩

/-- A first node already tagged api-endpoint. -/
def exNodeEp1 : Node := ⟨"c1-h1-e1".data, "1.1.1.1".data, NodeType.apiEndpoint⟩

/-- A second node already tagged api-endpoint, with a different address. -/
def exNodeEp2 : Node := ⟨"c1-h1-e2".data, "2.2.2.2".data, NodeType.apiEndpoint⟩

/-- Cluster with two LB clusters, only the second of which qualifies. -/
def wK1 : KubeEleven := exCluster [exPool [exNodeMaster1]] [exLBIngress, exLBApi]

/-- Cluster with a worker followed by two masters and no LB cluster. -/
def wK2 : KubeEleven := exCluster [exPool [exNodeWorker, exNodeMaster1, exNodeMaster2]] []

/-- Cluster with a master followed by two api-endpoint nodes. -/
def wK3 : KubeEleven := exCluster [exPool [exNodeMaster1, exNodeEp1, exNodeEp2]] []

/-- Cluster with a single master node. -/
def wK4 : KubeEleven := exCluster [exPool [exNodeMaster1]] []

/-- Cluster with only a worker node and a non-qualifying LB cluster. -/
def wK5 : KubeEleven := exCluster [exPool [exNodeWorker]] [exLBIngress]

/-- Cluster holding two api-endpoint nodes in one pool. -/
def cexK3 : KubeEleven := exCluster [exPool [exNodeEp1, exNodeEp2]] []

/-- Cluster holding api-endpoint nodes in two different pools. -/
def cexK4 : KubeEleven := exCluster [exPool [exNodeEp1], exPool [exNodeEp2]] []

/-- Environment in which kubeone apply fails. -/
def exEnvApplyFail : Env := ⟨none, some "exit status 1".data, Except.ok [], none⟩

/-- Environment in which the kubeconfig file reads back empty. -/
def exEnvReadEmpty : Env := ⟨none, none, Except.ok [], none⟩

/-- Environment in which only the final directory removal fails. -/
def exEnvRemoveFail : Env := ⟨none, none, Except.ok "newkubeconfig".data, some "permission denied".data⟩

/-- Cluster info whose pools do not matter for the working directory. -/
def wInfoA : ClusterInfo := ⟨"c1".data, "h1".data, []⟩

/-- Same name and hash as wInfoA but different pools. -/
def wInfoB : ClusterInfo := ⟨"c1".data, "h1".data, [exPool []]⟩

/-- Cluster info with a hyphen inside the name. -/
def cexInfoA : ClusterInfo := ⟨"a-b".data, "c".data, []⟩

/-- Cluster info with a hyphen inside the hash, colliding with cexInfoA. -/
def cexInfoB : ClusterInfo := ⟨"a".data, "b-c".data, []⟩

/-- Scanning a concatenation threads the accumulator through the first part. -/
theorem scanCandidate_append (l₁ l₂ : List (Nat × Nat × Node)) (acc : Option (Nat × Nat × Node)) :
    scanCandidate (l₁ ++ l₂) acc = scanCandidate l₂ (scanCandidate l₁ acc) := by
  induction l₁ generalizing acc with
  | nil => rfl
  | cons x rest ih =>
    obtain ⟨i, j, n⟩ := x
    simp only [List.cons_append, scanCandidate]
    exact ih _

/-- A held candidate survives any stretch of the scan free of api-endpoint
nodes: masters never displace it. -/
theorem scanCandidate_keep (l : List (Nat × Nat × Node)) (r : Nat × Nat × Node)
    (h : ∀ x ∈ l, x.2.2.nodeType ≠ NodeType.apiEndpoint) :
    scanCandidate l (some r) = some r := by
  induction l with
  | nil => rfl
  | cons x rest ih =>
    obtain ⟨i, j, n⟩ := x
    have hx : n.nodeType ≠ NodeType.apiEndpoint := h (i, j, n) (List.mem_cons_self _ _)
    have hc : ¬(n.nodeType = NodeType.master ∧ (some r : Option (Nat × Nat × Node)) = none) :=
      fun hc => Option.some_ne_none r hc.2
    simp only [scanCandidate, updateCandidate]
    rw [if_neg hx, if_neg hc]
    exact ih (fun y hy => h y (List.mem_cons_of_mem _ hy))

/-- Over a stretch with no api-endpoint node and no candidate yet, the scan
selects exactly the first master. -/
theorem scanCandidate_none_eq_findMaster (l : List (Nat × Nat × Node))
    (h : ∀ x ∈ l, x.2.2.nodeType ≠ NodeType.apiEndpoint) :
    scanCandidate l none = l.find? entryIsMaster := by
  induction l with
  | nil => rfl
  | cons x rest ih =>
    obtain ⟨i, j, n⟩ := x
    have hx : n.nodeType ≠ NodeType.apiEndpoint := h (i, j, n) (List.mem_cons_self _ _)
    have hrest : ∀ y ∈ rest, y.2.2.nodeType ≠ NodeType.apiEndpoint :=
      fun y hy => h y (List.mem_cons_of_mem _ hy)
    by_cases hm : n.nodeType = NodeType.master
    · have hc : n.nodeType = NodeType.master ∧ True := ⟨hm, trivial⟩
      simp only [scanCandidate, updateCandidate]
      rw [if_neg hx, if_pos hc, scanCandidate_keep rest _ hrest,
        List.find?_cons_of_pos _ (by simp [entryIsMaster, hm])]
    · have hc : ¬(n.nodeType = NodeType.master ∧ True) := fun hc => hm hc.1
      simp only [scanCandidate, updateCandidate]
      rw [if_neg hx, if_neg hc, ih hrest,
        List.find?_cons_of_neg _ (by simp [entryIsMaster, hm])]

/-- A successful find? splits the list at the first hit. -/
theorem find?_split {α : Type} {p : α → Bool} {l : List α} {a : α}
    (h : l.find? p = some a) :
    ∃ l₁ l₂, l = l₁ ++ a :: l₂ ∧ ∀ x ∈ l₁, ¬p x = true := by
  induction l with
  | nil => simp [List.find?] at h
  | cons y rest ih =>
    by_cases hy : p y = true
    · rw [List.find?_cons_of_pos _ hy] at h
      obtain rfl : y = a := by simpa using h
      exact ⟨[], rest, rfl, by simp⟩
    · rw [List.find?_cons_of_neg _ hy] at h
      obtain ⟨l₁, l₂, rfl, hl₁⟩ := ih h
      refine ⟨y :: l₁, l₂, rfl, ?_⟩
      intro x hx
      rcases List.mem_cons.mp hx with rfl | hx
      · exact hy
      · exact hl₁ x hx

/-- An api-endpoint node followed only by non-api-endpoint nodes ends the scan
as the candidate, whatever was held before it. -/
theorem scanCandidate_apiEp_last (l₁ l₂ : List (Nat × Nat × Node)) (x : Nat × Nat × Node)
    (hx : x.2.2.nodeType = NodeType.apiEndpoint)
    (h₂ : ∀ y ∈ l₂, y.2.2.nodeType ≠ NodeType.apiEndpoint) (acc : Option (Nat × Nat × Node)) :
    scanCandidate (l₁ ++ x :: l₂) acc = some x := by
  rw [scanCandidate_append]
  obtain ⟨i, j, n⟩ := x
  simp only [scanCandidate, updateCandidate, if_pos hx]
  exact scanCandidate_keep l₂ _ h₂

/-- Any candidate produced by the scan either was the initial accumulator or is
a scanned node tagged api-endpoint or master. -/
theorem scanCandidate_eq_some (l : List (Nat × Nat × Node)) (acc : Option (Nat × Nat × Node))
    (x : Nat × Nat × Node) (h : scanCandidate l acc = some x) :
    acc = some x ∨
      (x ∈ l ∧ (x.2.2.nodeType = NodeType.apiEndpoint ∨ x.2.2.nodeType = NodeType.master)) := by
  induction l generalizing acc with
  | nil => exact Or.inl h
  | cons y rest ih =>
    obtain ⟨i, j, n⟩ := y
    simp only [scanCandidate] at h
    rcases ih _ h with hupd | ⟨hmem, ht⟩
    · by_cases h1 : n.nodeType = NodeType.apiEndpoint
      · rw [updateCandidate, if_pos h1] at hupd
        cases Option.some_inj.mp hupd
        exact Or.inr ⟨List.mem_cons_self _ _, Or.inl h1⟩
      · by_cases h2 : n.nodeType = NodeType.master ∧ acc = none
        · rw [updateCandidate, if_neg h1, if_pos h2] at hupd
          cases Option.some_inj.mp hupd
          exact Or.inr ⟨List.mem_cons_self _ _, Or.inr h2.1⟩
        · rw [updateCandidate, if_neg h1, if_neg h2] at hupd
          exact Or.inl hupd
    · exact Or.inr ⟨List.mem_cons_of_mem _ hmem, ht⟩

/-- When the scan that started empty ends on a master candidate, the scanned
stretch contained no api-endpoint node at all. -/
theorem no_apiEp_of_scan_master (l : List (Nat × Nat × Node)) (x : Nat × Nat × Node)
    (hscan : scanCandidate l none = some x) (hm : x.2.2.nodeType = NodeType.master) :
    ∀ y ∈ l, y.2.2.nodeType ≠ NodeType.apiEndpoint := by
  intro y hy hyep
  have hsome : (l.reverse.find? entryIsApiEndpoint).isSome := by
    rw [List.find?_isSome]
    exact ⟨y, List.mem_reverse.mpr hy, by simp [entryIsApiEndpoint, hyep]⟩
  obtain ⟨z, hz⟩ := Option.isSome_iff_exists.mp hsome
  have hzp : z.2.2.nodeType = NodeType.apiEndpoint := by
    have := List.find?_some hz
    simpa [entryIsApiEndpoint] using this
  obtain ⟨A, B, hAB, hA⟩ := find?_split hz
  have hl : l = B.reverse ++ z :: A.reverse := by
    have := congrArg List.reverse hAB
    simpa [List.reverse_append, List.append_assoc] using this
  have hscan' : scanCandidate l none = some z := by
    rw [hl]
    refine scanCandidate_apiEp_last _ _ _ hzp ?_ none
    intro w hw
    have := hA w (List.mem_reverse.mp hw)
    simpa [entryIsApiEndpoint] using this
  rw [hscan] at hscan'
  cases Option.some_inj.mp hscan'
  rw [hm] at hzp
  cases hzp

/-- Positions recorded while enumerating one pool are accurate: an entry of
`enumNodeList i0 j0 ns` carries pool index `i0` and the offset of its node. -/
theorem mem_enumNodeList {i j : Nat} {n : Node} {i0 j0 : Nat} {ns : List Node}
    (h : (i, j, n) ∈ enumNodeList i0 j0 ns) :
    i = i0 ∧ ∃ j', j = j0 + j' ∧ ns[j']? = some n := by
  induction ns generalizing j0 with
  | nil => simp [enumNodeList] at h
  | cons m rest ih =>
    rcases List.mem_cons.mp h with heq | hmem
    · have h3 : i = i0 ∧ j = j0 ∧ n = m := by simpa using heq
      obtain ⟨rfl, rfl, rfl⟩ := h3
      exact ⟨rfl, 0, by omega, by simp⟩
    · obtain ⟨rfl, j', rfl, hj⟩ := ih hmem
      refine ⟨rfl, j' + 1, by omega, by simpa using hj⟩

/-- Positions recorded while enumerating the pools are accurate. -/
theorem mem_enumPools {i j : Nat} {n : Node} {b : Nat} {ps : List NodePool}
    (h : (i, j, n) ∈ enumPools b ps) :
    ∃ i' p, i = b + i' ∧ ps[i']? = some p ∧ p.nodes[j]? = some n := by
  induction ps generalizing b with
  | nil => simp [enumPools] at h
  | cons p rest ih =>
    rcases List.mem_append.mp h with h1 | h2
    · obtain ⟨rfl, j', hj, hget⟩ := mem_enumNodeList h1
      have hj' : j = j' := by omega
      subst hj'
      exact ⟨0, p, by omega, by simp, hget⟩
    · obtain ⟨i'', q, rfl, hq, hn⟩ := ih h2
      exact ⟨i'' + 1, q, by omega, by simpa using hq, hn⟩

/-- Every enumerated entry is a node of one of the pools. -/
theorem node_of_enum_mem {pools : List NodePool} {x : Nat × Nat × Node}
    (hx : x ∈ enumNodes pools) : ∃ p ∈ pools, x.2.2 ∈ p.nodes := by
  obtain ⟨i, j, n⟩ := x
  obtain ⟨i', p, _, hp, hn⟩ := mem_enumPools (by simpa [enumNodes] using hx)
  exact ⟨p, List.getElem?_mem hp, List.getElem?_mem hn⟩

/-- Enumerating one pool after an in-place update of node `j` changes exactly
that entry. -/
theorem enumNodeList_split {n : Node} (g : Node → Node) (i0 : Nat) :
    ∀ (j j0 : Nat) (ns : List Node), ns[j]? = some n →
    ∃ A B, enumNodeList i0 j0 ns = A ++ (i0, j0 + j, n) :: B ∧
      enumNodeList i0 j0 (modifyAt g ns j) = A ++ (i0, j0 + j, g n) :: B := by
  intro j
  induction j with
  | zero =>
    intro j0 ns h
    cases ns with
    | nil => simp at h
    | cons m rest =>
      obtain rfl : m = n := by simpa using h
      exact ⟨[], enumNodeList i0 (j0 + 1) rest, by simp [enumNodeList],
        by simp [enumNodeList, modifyAt]⟩
  | succ j' ih =>
    intro j0 ns h
    cases ns with
    | nil => simp at h
    | cons m rest =>
      have h' : rest[j']? = some n := by simpa using h
      obtain ⟨A, B, h1, h2⟩ := ih (j0 + 1) rest h'
      rw [show j0 + 1 + j' = j0 + (j' + 1) from by omega] at h1 h2
      refine ⟨(i0, j0, m) :: A, B, ?_, ?_⟩
      · show (i0, j0, m) :: enumNodeList i0 (j0 + 1) rest = _
        rw [h1]; rfl
      · show (i0, j0, m) :: enumNodeList i0 (j0 + 1) (modifyAt g rest j') = _
        rw [h2]; rfl

/-- Enumerating the pools after an in-place update of node `(i, j)` changes
exactly that entry. -/
theorem enumPools_split {p : NodePool} {n : Node} {j : Nat} (g : Node → Node) :
    ∀ (i b : Nat) (ps : List NodePool), ps[i]? = some p → p.nodes[j]? = some n →
    ∃ A B, enumPools b ps = A ++ (b + i, j, n) :: B ∧
      enumPools b (modifyAt (fun q => { q with nodes := modifyAt g q.nodes j }) ps i) =
        A ++ (b + i, j, g n) :: B := by
  intro i
  induction i with
  | zero =>
    intro b ps hp hn
    cases ps with
    | nil => simp at hp
    | cons q rest =>
      obtain rfl : q = p := by simpa using hp
      obtain ⟨A, B, h1, h2⟩ := enumNodeList_split g b j 0 _ hn
      rw [Nat.zero_add] at h1 h2
      refine ⟨A, B ++ enumPools (b + 1) rest, ?_, ?_⟩
      · show enumNodeList b 0 _ ++ enumPools (b + 1) rest = _
        rw [h1]; simp [List.append_assoc]
      · show enumNodeList b 0 (modifyAt g _ j) ++ enumPools (b + 1) rest = _
        rw [h2]; simp [List.append_assoc]
  | succ i' ih =>
    intro b ps hp hn
    cases ps with
    | nil => simp at hp
    | cons q rest =>
      have hp' : rest[i']? = some p := by simpa using hp
      obtain ⟨A, B, h1, h2⟩ := ih (b + 1) rest hp' hn
      rw [show b + 1 + i' = b + (i' + 1) from by omega] at h1 h2
      refine ⟨enumNodeList b 0 q.nodes ++ A, B, ?_, ?_⟩
      · show enumNodeList b 0 q.nodes ++ enumPools (b + 1) rest = _
        rw [h1]; simp [List.append_assoc]
      · show enumNodeList b 0 q.nodes ++ enumPools (b + 1) (modifyAt _ rest i') = _
        rw [h2]; simp [List.append_assoc]

/-- An in-place update whose function fixes the target element is a no-op. -/
theorem modifyAt_self {α : Type} {l : List α} {j : Nat} {a : α} {f : α → α}
    (h : l[j]? = some a) (hf : f a = a) : modifyAt f l j = l := by
  induction l generalizing j with
  | nil => rfl
  | cons x xs ih =>
    cases j with
    | zero =>
      obtain rfl : x = a := by simpa using h
      simp [modifyAt, hf]
    | succ j' =>
      simp only [modifyAt]
      rw [ih (by simpa using h)]

/-- Re-tagging an api-endpoint node is the identity. -/
theorem setNodeType_self {n : Node} (h : n.nodeType = NodeType.apiEndpoint) :
    setNodeType NodeType.apiEndpoint n = n := by
  cases n
  cases h
  rfl

/-- Promotion of a node that already carries the api-endpoint tag leaves the
pools unchanged. -/
theorem promoteAt_self {pools : List NodePool} {i j : Nat} {p : NodePool} {n : Node}
    (hp : pools[i]? = some p) (hn : p.nodes[j]? = some n)
    (ht : n.nodeType = NodeType.apiEndpoint) : promoteAt pools i j = pools := by
  refine modifyAt_self hp ?_
  rw [modifyAt_self hn (setNodeType_self ht)]

/-- If no attached LB cluster both targets the cluster and carries an ApiServer
role, the LB loop falls through. -/
theorem findApiServerLB_eq_none {nm : Str} {lbs : List LBcluster}
    (h : ∀ lb ∈ lbs, ¬(lb.targetedK8S = nm ∧ lb.roles.any Role.isApiServer = true)) :
    findApiServerLB nm lbs = none := by
  induction lbs with
  | nil => rfl
  | cons lb rest ih =>
    rw [findApiServerLB, if_neg (h lb (List.mem_cons_self _ _))]
    exact ih (fun x hx => h x (List.mem_cons_of_mem _ hx))

/-- The LB loop returns the DNS endpoint of the first qualifying LB cluster in
input order. -/
theorem findApiServerLB_eq_find (nm : Str) (lbs : List LBcluster) :
    findApiServerLB nm lbs =
      (lbs.find? (fun lb => decide (lb.targetedK8S = nm) && lb.roles.any Role.isApiServer)).map
        (fun lb => lb.dns.endpoint) := by
  induction lbs with
  | nil => rfl
  | cons lb rest ih =>
    by_cases h : lb.targetedK8S = nm ∧ lb.roles.any Role.isApiServer = true
    · rw [findApiServerLB, if_pos h,
        List.find?_cons_of_pos _ (by simp [h.1, h.2]), Option.map_some']
    · rw [findApiServerLB, if_neg h,
        List.find?_cons_of_neg _ (by simpa using h), ih]

/-- The shape of the prefix match: trimming removes a leading occurrence. -/
theorem isPrefixOf_append (p r : Str) : p.isPrefixOf (p ++ r) = true := by
  induction p with
  | nil => simp [List.isPrefixOf]
  | cons c cs ih => simp [List.isPrefixOf, ih]

/-- Trimming strips a present leading occurrence of the separator string. -/
theorem trimPrefix_append (p r : Str) : trimPrefix p (p ++ r) = r := by
  rw [trimPrefix, if_pos (isPrefixOf_append p r), List.drop_left]

/-- Trimming leaves a name unchanged when the lead-in is absent. -/
theorem trimPrefix_of_not_leading {p s : Str} (h : p.isPrefixOf s = false) :
    trimPrefix p s = s := by
  rw [trimPrefix, if_neg]
  simp [h]

/-- The Clean embedding reproduces Go filepath.Clean on its documented
behaviors. -/
theorem clean_behavior :
    clean [] = ['.'] ∧
    clean "/".data = "/".data ∧
    clean "a//b".data = "a/b".data ∧
    clean "a/./b".data = "a/b".data ∧
    clean "a/../b".data = "b".data ∧
    clean "/..".data = "/".data ∧
    clean "../../a".data = "../../a".data ∧
    clean "a/b/".data = "a/b".data := by decide

/-- Splitting peels off a separator-free leading chunk. -/
theorem splitOnChar_append (sep : Char) (a b : Str) (h : sep ∉ a) :
    splitOnChar sep (a ++ sep :: b) = a :: splitOnChar sep b := by
  induction a with
  | nil => simp [splitOnChar]
  | cons c a' ih =>
    have hc : ¬(c = sep) := by
      intro hh
      exact h (hh ▸ List.mem_cons_self _ _)
    have ih' := ih (fun hm => h (List.mem_cons_of_mem _ hm))
    have ih2 : splitOnChar sep (a'.append (sep :: b)) = a' :: splitOnChar sep b := ih'
    simp only [List.cons_append, splitOnChar, if_neg hc]
    rw [ih2]
    rfl

/-- A separator-free string splits into a single chunk. -/
theorem splitOnChar_no_sep (sep : Char) (x : Str) (h : sep ∉ x) :
    splitOnChar sep x = [x] := by
  induction x with
  | nil => rfl
  | cons c x' ih =>
    have hc : ¬(c = sep) := by
      intro hh
      exact h (hh ▸ List.mem_cons_self _ _)
    have ih' := ih (fun hm => h (List.mem_cons_of_mem _ hm))
    simp only [splitOnChar, if_neg hc, ih']
    rfl

/-- Clean is the identity on the build path when the final component contains
no separator and is not empty, "." or "..". -/
theorem clean_convention (id : Str) (h1 : '/' ∉ id)
    (h2 : ¬(id = [] ∨ id = ['.'])) (h3 : id ≠ ['.', '.']) :
    clean ("services/kube-eleven/server/clusters/".data ++ id)
      = "services/kube-eleven/server/clusters/".data ++ id := by
  have hs : splitOnChar '/' ("services/kube-eleven/server/clusters/".data ++ id)
      = ["services".data, "kube-eleven".data, "server".data, "clusters".data, id] := by
    calc splitOnChar '/' ("services/kube-eleven/server/clusters/".data ++ id)
        = splitOnChar '/' ("services".data ++ '/' ::
            ("kube-eleven".data ++ '/' :: ("server".data ++ '/' ::
              ("clusters".data ++ '/' :: id)))) := rfl
      _ = "services".data :: splitOnChar '/' ("kube-eleven".data ++ '/' ::
            ("server".data ++ '/' :: ("clusters".data ++ '/' :: id))) :=
          splitOnChar_append '/' _ _ (by decide)
      _ = "services".data :: "kube-eleven".data :: splitOnChar '/'
            ("server".data ++ '/' :: ("clusters".data ++ '/' :: id)) := by
          rw [splitOnChar_append '/' _ _ (by decide)]
      _ = "services".data :: "kube-eleven".data :: "server".data :: splitOnChar '/'
            ("clusters".data ++ '/' :: id) := by
          rw [splitOnChar_append '/' _ _ (by decide)]
      _ = "services".data :: "kube-eleven".data :: "server".data :: "clusters".data ::
            splitOnChar '/' id := by
          rw [splitOnChar_append '/' _ _ (by decide)]
      _ = ["services".data, "kube-eleven".data, "server".data, "clusters".data, id] := by
          rw [splitOnChar_no_sep '/' id h1]
  have hne : ¬("services/kube-eleven/server/clusters/".data ++ id = []) := by
    intro hh
    exact List.noConfusion
      (show ('s' :: ("ervices/kube-eleven/server/clusters/".data ++ id)) = [] from hh)
  have hroot : (decide (("services/kube-eleven/server/clusters/".data ++ id).head? = some '/'))
      = false := rfl
  have hfold : (["services".data, "kube-eleven".data, "server".data, "clusters".data,
      id]).foldl (cleanPush false) []
      = id :: ["clusters".data, "server".data, "kube-eleven".data, "services".data] := by
    show cleanPush false ["clusters".data, "server".data, "kube-eleven".data, "services".data] id
      = id :: ["clusters".data, "server".data, "kube-eleven".data, "services".data]
    simp only [cleanPush]
    rw [if_neg h2, if_neg h3]
  simp only [clean]
  rw [if_neg hne]
  simp only [hroot, hs, hfold]
  rfl

/-- The working directory follows the documented path convention whenever the
cluster name and hash contain no path separator (Clean is then the identity). -/
theorem workingDirectory_eq (ci : ClusterInfo) (hn : '/' ∉ ci.name) (hh : '/' ∉ ci.hash) :
    workingDirectory ci =
      "services/kube-eleven/server/clusters/".data ++ (ci.name ++ '-' :: ci.hash) := by
  have hmem : '-' ∈ ci.name ++ '-' :: ci.hash :=
    List.mem_append_right _ (List.mem_cons_self _ _)
  have h1 : '/' ∉ ci.name ++ '-' :: ci.hash := by
    intro hm
    rcases List.mem_append.mp hm with hm1 | hm2
    · exact hn hm1
    · rcases List.mem_cons.mp hm2 with he | hm3
      · exact absurd he (by decide)
      · exact hh hm3
  have h2 : ¬(ci.name ++ '-' :: ci.hash = [] ∨ ci.name ++ '-' :: ci.hash = ['.']) := by
    rintro (he | he) <;> rw [he] at hmem <;> revert hmem <;> decide
  have h3 : ci.name ++ '-' :: ci.hash ≠ ['.', '.'] := by
    intro he
    rw [he] at hmem
    revert hmem
    decide
  show clean ("services/kube-eleven/server/clusters/".data ++ (ci.name ++ '-' :: ci.hash))
    = "services/kube-eleven/server/clusters/".data ++ (ci.name ++ '-' :: ci.hash)
  exact clean_convention _ h1 h2 h3

/-- Without the separator-free condition the convention fails: Clean collapses
distinct slash-containing names onto the same working directory. -/
theorem workingDirectory_clean_collision :
    workingDirectory ⟨"a//b".data, "h".data, []⟩
      = workingDirectory ⟨"a/b".data, "h".data, []⟩ := by decide

/-- Splitting around a separator character absent from both right parts is
unambiguous. -/
theorem append_sep_inj {c : Char} : ∀ (a b x y : List Char),
    a ++ c :: x = b ++ c :: y → c ∉ x → c ∉ y → a = b ∧ x = y := by
  intro a
  induction a with
  | nil =>
    intro b x y h hx hy
    cases b with
    | nil => simpa using h
    | cons d b' =>
      simp only [List.nil_append, List.cons_append, List.cons.injEq] at h
      obtain ⟨rfl, h2⟩ := h
      exact absurd (h2 ▸ List.mem_append_right b' (List.mem_cons_self c y)) hx
  | cons d a' ih =>
    intro b x y h hx hy
    cases b with
    | nil =>
      simp only [List.cons_append, List.nil_append, List.cons.injEq] at h
      obtain ⟨rfl, h2⟩ := h
      exact absurd (h2 ▸ List.mem_append_right a' (List.mem_cons_self d x)) hy
    | cons e b' =>
      simp only [List.cons_append, List.cons.injEq] at h
      obtain ⟨rfl, h2⟩ := h
      obtain ⟨rfl, rfl⟩ := ih b' x y h2 hx hy
      exact ⟨rfl, rfl⟩

/-- C1: for every cluster that has at least one attached load-balancer cluster
whose target equals the cluster's name and that carries an API-server role,
endpoint resolution returns the DNS endpoint of the first such load balancer in
input order, and no node's role is mutated by the resolution. -/
theorem claim_C1 (k : KubeEleven)
    (h : ∃ lb ∈ k.lbClusters,
      lb.targetedK8S = k.k8sCluster.clusterInfo.name ∧ lb.roles.any Role.isApiServer = true) :
    ∃ lb,
      k.lbClusters.find? (fun l =>
          decide (l.targetedK8S = k.k8sCluster.clusterInfo.name) && l.roles.any Role.isApiServer)
        = some lb ∧
      resolveEndpoint k = (lb.dns.endpoint, k.k8sCluster.clusterInfo.nodePools) := by
  obtain ⟨lb0, hmem, h1, h2⟩ := h
  have hsome : (k.lbClusters.find? (fun l =>
      decide (l.targetedK8S = k.k8sCluster.clusterInfo.name) && l.roles.any Role.isApiServer)).isSome := by
    rw [List.find?_isSome]
    exact ⟨lb0, hmem, by simp [h1, h2]⟩
  obtain ⟨lb, hfind⟩ := Option.isSome_iff_exists.mp hsome
  refine ⟨lb, hfind, ?_⟩
  have hlb : findApiServerLB k.k8sCluster.clusterInfo.name k.lbClusters = some lb.dns.endpoint := by
    rw [findApiServerLB_eq_find, hfind, Option.map_some']
  simp only [resolveEndpoint, getClusterNodes, findAPIEndpoint, hlb]

/-- Witness for C1 on a concrete cluster whose second LB cluster qualifies. -/
theorem claim_C1_witness :
    ∃ lb,
      wK1.lbClusters.find? (fun l =>
          decide (l.targetedK8S = wK1.k8sCluster.clusterInfo.name) && l.roles.any Role.isApiServer)
        = some lb ∧
      resolveEndpoint wK1 = (lb.dns.endpoint, wK1.k8sCluster.clusterInfo.nodePools) :=
  claim_C1 wK1 (by decide)

/-- C5: with neither a qualifying API-server load balancer nor any api-endpoint
or master node, resolution returns the empty endpoint, mutates nothing, and (by
the total return type of the embedded findAPIEndpoint) does not fail. -/
theorem claim_C5 (k : KubeEleven)
    (hlb : ∀ lb ∈ k.lbClusters,
      ¬(lb.targetedK8S = k.k8sCluster.clusterInfo.name ∧ lb.roles.any Role.isApiServer = true))
    (hnode : ∀ p ∈ k.k8sCluster.clusterInfo.nodePools, ∀ nd ∈ p.nodes,
      nd.nodeType ≠ NodeType.apiEndpoint ∧ nd.nodeType ≠ NodeType.master) :
    resolveEndpoint k = ([], k.k8sCluster.clusterInfo.nodePools) := by
  have hA : ∀ x ∈ enumNodes k.k8sCluster.clusterInfo.nodePools,
      x.2.2.nodeType ≠ NodeType.apiEndpoint := by
    intro x hx
    obtain ⟨p, hp, hn⟩ := node_of_enum_mem hx
    exact (hnode p hp _ hn).1
  have hscan : scanCandidate (enumNodes k.k8sCluster.clusterInfo.nodePools) none = none := by
    rw [scanCandidate_none_eq_findMaster _ hA, List.find?_eq_none]
    intro x hx
    obtain ⟨p, hp, hn⟩ := node_of_enum_mem hx
    simpa [entryIsMaster] using (hnode p hp _ hn).2
  simp only [resolveEndpoint, getClusterNodes, findAPIEndpoint,
    findApiServerLB_eq_none hlb, hscan]

/-- Witness for C5 on a concrete cluster with one worker and a non-qualifying
LB cluster. -/
theorem claim_C5_witness :
    resolveEndpoint wK5 = ([], wK5.k8sCluster.clusterInfo.nodePools) :=
  claim_C5 wK5 (by decide) (by decide)

/-- C6: when the kubeone invocation fails, BuildCluster returns the wrapped
apply error carrying the working directory, the directory is not removed, and
the kubeconfig field is unchanged. -/
theorem claim_C6 (env : Env) (k : KubeEleven) (cause : Str)
    (hgen : env.generateFilesResult = none) (happ : env.applyResult = some cause) :
    buildCluster env k =
      ⟨some (BuildError.kubeoneApply (workingDirectory k.k8sCluster.clusterInfo) cause),
        k.k8sCluster.kubeconfig, false⟩ := by
  simp only [buildCluster, hgen, happ]

/-- Witness for C6 on a concrete environment in which kubeone apply fails. -/
theorem claim_C6_witness :
    buildCluster exEnvApplyFail wK4 =
      ⟨some (BuildError.kubeoneApply (workingDirectory wK4.k8sCluster.clusterInfo)
          "exit status 1".data),
        wK4.k8sCluster.kubeconfig, false⟩ :=
  claim_C6 exEnvApplyFail wK4 "exit status 1".data (by decide) (by decide)

/-- C7: when the kubeconfig file reads back present but empty, the extraction
step raises no error and the cluster's kubeconfig field keeps its prior value
(it is only overwritten by non-empty content). -/
theorem claim_C7 (env : Env) (k : KubeEleven)
    (hgen : env.generateFilesResult = none) (happ : env.applyResult = none)
    (hread : env.readResult = Except.ok []) :
    (buildCluster env k).kubeconfig = k.k8sCluster.kubeconfig ∧
    (∀ w c, (buildCluster env k).result ≠ some (BuildError.readKubeconfig w c)) ∧
    (env.removeResult = none → (buildCluster env k).result = none) := by
  rcases hrm : env.removeResult with _ | e <;>
    simp [buildCluster, hgen, happ, hread, hrm]

/-- Witness for C7 on a concrete environment with an empty kubeconfig read. -/
theorem claim_C7_witness :
    (buildCluster exEnvReadEmpty wK4).kubeconfig = wK4.k8sCluster.kubeconfig ∧
    (∀ w c, (buildCluster exEnvReadEmpty wK4).result ≠ some (BuildError.readKubeconfig w c)) ∧
    (exEnvReadEmpty.removeResult = none → (buildCluster exEnvReadEmpty wK4).result = none) :=
  claim_C7 exEnvReadEmpty wK4 (by decide) (by decide) rfl

/-- C8: when directory removal fails after a successful non-empty kubeconfig
extraction, BuildCluster returns an error although the kubeconfig field has
already been overwritten — a returned error does not imply unchanged state. -/
theorem claim_C8 (env : Env) (k : KubeEleven) (s e : Str)
    (hgen : env.generateFilesResult = none) (happ : env.applyResult = none)
    (hread : env.readResult = Except.ok s) (hs : s ≠ [])
    (hrm : env.removeResult = some e) :
    (buildCluster env k).result
        = some (BuildError.removeFiles (workingDirectory k.k8sCluster.clusterInfo) e) ∧
    (buildCluster env k).kubeconfig = s := by
  have hlen : 0 < s.length := List.length_pos.mpr hs
  simp [buildCluster, hgen, happ, hread, hrm, hlen]

/-- Witness for C8: concrete failing removal after extracting content that
differs from the prior kubeconfig. -/
theorem claim_C8_witness :
    (buildCluster exEnvRemoveFail wK4).result
        = some (BuildError.removeFiles (workingDirectory wK4.k8sCluster.clusterInfo)
          "permission denied".data) ∧
    (buildCluster exEnvRemoveFail wK4).kubeconfig = "newkubeconfig".data :=
  claim_C8 exEnvRemoveFail wK4 "newkubeconfig".data "permission denied".data
    (by decide) (by decide) rfl (by decide) (by decide)

/-- C9: node display-name derivation removes the literal name-hash lead-in,
leaves a name that does not start with it unchanged, and is idempotent on
already-stripped names. -/
theorem claim_C9 (ci : ClusterInfo) (rest s : Str) :
    trimPrefix (namePrefix ci) (namePrefix ci ++ rest) = rest ∧
    ((namePrefix ci).isPrefixOf s = false →
      trimPrefix (namePrefix ci) s = s ∧
      trimPrefix (namePrefix ci) (trimPrefix (namePrefix ci) s) = s) := by
  refine ⟨trimPrefix_append _ _, fun h => ?_⟩
  have h1 := trimPrefix_of_not_leading h
  rw [h1]
  exact ⟨rfl, h1⟩

/-- Witness for C9 on the c1/h1 lead-in and a name lacking it. -/
theorem claim_C9_witness :
    trimPrefix (namePrefix wInfoA) (namePrefix wInfoA ++ "node1".data) = "node1".data ∧
    ((namePrefix wInfoA).isPrefixOf "other".data = false →
      trimPrefix (namePrefix wInfoA) "other".data = "other".data ∧
      trimPrefix (namePrefix wInfoA) (trimPrefix (namePrefix wInfoA) "other".data)
        = "other".data) :=
  claim_C9 wInfoA "node1".data "other".data

/-- Resolution shape when no LB cluster qualifies and a candidate was found:
the candidate's address is returned and its position promoted. -/
theorem resolveEndpoint_promote (k : KubeEleven)
    (hlbn : findApiServerLB k.k8sCluster.clusterInfo.name k.lbClusters = none)
    {x : Nat × Nat × Node}
    (hscan : scanCandidate (enumNodes k.k8sCluster.clusterInfo.nodePools) none = some x) :
    resolveEndpoint k
      = (x.2.2.public, promoteAt k.k8sCluster.clusterInfo.nodePools x.1 x.2.1) := by
  obtain ⟨i, j, n⟩ := x
  simp only [resolveEndpoint, getClusterNodes, findAPIEndpoint, hlbn, hscan]

/-- Resolution shape when no LB cluster qualifies and no candidate exists. -/
theorem resolveEndpoint_empty (k : KubeEleven)
    (hlbn : findApiServerLB k.k8sCluster.clusterInfo.name k.lbClusters = none)
    (hscan : scanCandidate (enumNodes k.k8sCluster.clusterInfo.nodePools) none = none) :
    resolveEndpoint k = ([], k.k8sCluster.clusterInfo.nodePools) := by
  simp only [resolveEndpoint, getClusterNodes, findAPIEndpoint, hlbn, hscan]

/-- Resolution shape when an LB cluster qualifies. -/
theorem resolveEndpoint_lb (k : KubeEleven) {dns : Str}
    (hlb : findApiServerLB k.k8sCluster.clusterInfo.name k.lbClusters = some dns) :
    resolveEndpoint k = (dns, k.k8sCluster.clusterInfo.nodePools) := by
  simp only [resolveEndpoint, getClusterNodes, findAPIEndpoint, hlb]

/-- C2: with no qualifying LB cluster, no api-endpoint node and at least one
master, resolution promotes the first master in pool-then-node order, returns
its public address, and doing it again on the promoted cluster changes nothing
(promotion is idempotent). -/
theorem claim_C2 (k : KubeEleven) (i j : Nat) (m : Node)
    (hlb : ∀ lb ∈ k.lbClusters,
      ¬(lb.targetedK8S = k.k8sCluster.clusterInfo.name ∧ lb.roles.any Role.isApiServer = true))
    (hA : ∀ p ∈ k.k8sCluster.clusterInfo.nodePools, ∀ nd ∈ p.nodes,
      nd.nodeType ≠ NodeType.apiEndpoint)
    (hM : (enumNodes k.k8sCluster.clusterInfo.nodePools).find? entryIsMaster = some (i, j, m)) :
    resolveEndpoint k = (m.public, promoteAt k.k8sCluster.clusterInfo.nodePools i j) ∧
    resolveEndpoint (withPools k (promoteAt k.k8sCluster.clusterInfo.nodePools i j)) =
      (m.public, promoteAt k.k8sCluster.clusterInfo.nodePools i j) := by
  have hEA : ∀ x ∈ enumNodes k.k8sCluster.clusterInfo.nodePools,
      x.2.2.nodeType ≠ NodeType.apiEndpoint := by
    intro x hx
    obtain ⟨p, hp, hn⟩ := node_of_enum_mem hx
    exact hA p hp _ hn
  have hscan : scanCandidate (enumNodes k.k8sCluster.clusterInfo.nodePools) none = some (i, j, m) := by
    rw [scanCandidate_none_eq_findMaster _ hEA, hM]
  have hfirst : resolveEndpoint k = (m.public, promoteAt k.k8sCluster.clusterInfo.nodePools i j) :=
    resolveEndpoint_promote k (findApiServerLB_eq_none hlb) hscan
  refine ⟨hfirst, ?_⟩
  have hmem : (i, j, m) ∈ enumNodes k.k8sCluster.clusterInfo.nodePools :=
    List.mem_of_find?_eq_some hM
  obtain ⟨i2, p, hi2, hp, hn⟩ := mem_enumPools (by simpa [enumNodes] using hmem)
  have hii : i2 = i := by omega
  subst hii
  obtain ⟨A, B, h1, h2⟩ :=
    enumPools_split (setNodeType NodeType.apiEndpoint) i2 0 k.k8sCluster.clusterInfo.nodePools hp hn
  rw [Nat.zero_add] at h1 h2
  have h1' : enumNodes k.k8sCluster.clusterInfo.nodePools = A ++ (i2, j, m) :: B := h1
  have h2' : enumNodes (promoteAt k.k8sCluster.clusterInfo.nodePools i2 j)
      = A ++ (i2, j, setNodeType NodeType.apiEndpoint m) :: B := h2
  have hBno : ∀ y ∈ B, y.2.2.nodeType ≠ NodeType.apiEndpoint := by
    intro y hy
    refine hEA y ?_
    rw [h1']
    exact List.mem_append.mpr (Or.inr (List.mem_cons_of_mem _ hy))
  have hscan2 : scanCandidate
      (enumNodes (promoteAt k.k8sCluster.clusterInfo.nodePools i2 j)) none
      = some (i2, j, setNodeType NodeType.apiEndpoint m) := by
    rw [h2']
    exact scanCandidate_apiEp_last A B _ rfl hBno none
  have hmem2 : (i2, j, setNodeType NodeType.apiEndpoint m)
      ∈ enumNodes (promoteAt k.k8sCluster.clusterInfo.nodePools i2 j) := by
    rw [h2']
    exact List.mem_append.mpr (Or.inr (List.mem_cons_self _ _))
  obtain ⟨i3, p', hi3, hp', hn'⟩ := mem_enumPools (by simpa [enumNodes] using hmem2)
  have hii3 : i2 = i3 := by omega
  subst hii3
  have hpromo := promoteAt_self hp' hn' rfl
  have hlbn2 : findApiServerLB
      (withPools k (promoteAt k.k8sCluster.clusterInfo.nodePools i2 j)).k8sCluster.clusterInfo.name
      (withPools k (promoteAt k.k8sCluster.clusterInfo.nodePools i2 j)).lbClusters = none :=
    findApiServerLB_eq_none hlb
  have hscan2' : scanCandidate
      (enumNodes (withPools k (promoteAt k.k8sCluster.clusterInfo.nodePools i2 j)).k8sCluster.clusterInfo.nodePools)
      none = some (i2, j, setNodeType NodeType.apiEndpoint m) := hscan2
  have hres2 := resolveEndpoint_promote _ hlbn2 hscan2'
  rw [hres2]
  show ((setNodeType NodeType.apiEndpoint m).public,
      promoteAt (promoteAt k.k8sCluster.clusterInfo.nodePools i2 j) i2 j)
    = (m.public, promoteAt k.k8sCluster.clusterInfo.nodePools i2 j)
  rw [hpromo]
  rfl

/-- Witness for C2 on a concrete cluster with a worker followed by two masters. -/
theorem claim_C2_witness :
    resolveEndpoint wK2
        = (exNodeMaster1.public, promoteAt wK2.k8sCluster.clusterInfo.nodePools 0 1) ∧
    resolveEndpoint (withPools wK2 (promoteAt wK2.k8sCluster.clusterInfo.nodePools 0 1)) =
      (exNodeMaster1.public, promoteAt wK2.k8sCluster.clusterInfo.nodePools 0 1) :=
  claim_C2 wK2 0 1 exNodeMaster1 (by decide) (by decide) (by decide)

/-- C3 (amended): with no qualifying LB cluster and at least one api-endpoint
node, resolution returns the public address of the LAST api-endpoint node in
pool-then-node order — a later api-endpoint node displaces the candidate — and
leaves every node role unchanged. -/
theorem claim_C3 (k : KubeEleven) (i j : Nat) (m : Node)
    (hlb : ∀ lb ∈ k.lbClusters,
      ¬(lb.targetedK8S = k.k8sCluster.clusterInfo.name ∧ lb.roles.any Role.isApiServer = true))
    (hrev : (enumNodes k.k8sCluster.clusterInfo.nodePools).reverse.find? entryIsApiEndpoint
      = some (i, j, m)) :
    resolveEndpoint k = (m.public, k.k8sCluster.clusterInfo.nodePools) := by
  obtain ⟨A, B, hAB, hAno⟩ := find?_split hrev
  have hmep : m.nodeType = NodeType.apiEndpoint := by
    have := List.find?_some hrev
    simpa [entryIsApiEndpoint] using this
  have hl : enumNodes k.k8sCluster.clusterInfo.nodePools = B.reverse ++ (i, j, m) :: A.reverse := by
    have hrr := congrArg List.reverse hAB
    simpa [List.reverse_append, List.append_assoc] using hrr
  have hscan : scanCandidate (enumNodes k.k8sCluster.clusterInfo.nodePools) none
      = some (i, j, m) := by
    rw [hl]
    refine scanCandidate_apiEp_last _ _ _ hmep ?_ none
    intro w hw
    have := hAno w (List.mem_reverse.mp hw)
    simpa [entryIsApiEndpoint] using this
  have hmem : (i, j, m) ∈ enumNodes k.k8sCluster.clusterInfo.nodePools := by
    rw [hl]
    exact List.mem_append.mpr (Or.inr (List.mem_cons_self _ _))
  obtain ⟨i2, p, hi2, hp, hn⟩ := mem_enumPools (by simpa [enumNodes] using hmem)
  have hii : i2 = i := by omega
  subst hii
  have hpromo := promoteAt_self hp hn hmep
  have hres := resolveEndpoint_promote k (findApiServerLB_eq_none hlb) hscan
  rw [hres]
  show (m.public, promoteAt k.k8sCluster.clusterInfo.nodePools i2 j)
    = (m.public, k.k8sCluster.clusterInfo.nodePools)
  rw [hpromo]

/-- Counterexample for C3 as stated: with two api-endpoint nodes the first one
is adopted immediately but does NOT remain the candidate; resolution returns
the other node's address. -/
theorem claim_C3_counterexample :
    (enumNodes cexK3.k8sCluster.clusterInfo.nodePools).find? entryIsApiEndpoint
        = some (0, 0, exNodeEp1) ∧
    (resolveEndpoint cexK3).1 ≠ exNodeEp1.public := by decide

/-- Witness for C3 on a concrete cluster where the last of two api-endpoint
nodes wins. -/
theorem claim_C3_witness :
    resolveEndpoint wK3 = (exNodeEp2.public, wK3.k8sCluster.clusterInfo.nodePools) :=
  claim_C3 wK3 0 2 exNodeEp2 (by decide) (by decide)

/-- C4 (amended): resolution adds at most one api-endpoint tag, so every
cluster carrying at most one api-endpoint node beforehand carries at most one
afterwards. -/
theorem claim_C4 (k : KubeEleven)
    (h : countApiEndpoint k.k8sCluster.clusterInfo.nodePools ≤ 1) :
    countApiEndpoint (resolveEndpoint k).2 ≤ 1 := by
  rcases hfl : findApiServerLB k.k8sCluster.clusterInfo.name k.lbClusters with _ | dns
  · rcases hsc : scanCandidate (enumNodes k.k8sCluster.clusterInfo.nodePools) none with _ | x
    · rw [resolveEndpoint_empty k hfl hsc]
      exact h
    · obtain ⟨i, j, n⟩ := x
      rw [resolveEndpoint_promote k hfl hsc]
      rcases scanCandidate_eq_some _ _ _ hsc with hacc | ⟨hmem, ht⟩
      · exact absurd hacc (by simp)
      · obtain ⟨i2, p, hi2, hp, hn⟩ := mem_enumPools (by simpa [enumNodes] using hmem)
        have hii : i2 = i := by omega
        subst hii
        obtain ⟨A, B, h1, h2⟩ := enumPools_split (setNodeType NodeType.apiEndpoint) i2 0
          k.k8sCluster.clusterInfo.nodePools hp hn
        rw [Nat.zero_add] at h1 h2
        have h1' : enumNodes k.k8sCluster.clusterInfo.nodePools = A ++ (i2, j, n) :: B := h1
        have h2' : enumNodes (promoteAt k.k8sCluster.clusterInfo.nodePools i2 j)
            = A ++ (i2, j, setNodeType NodeType.apiEndpoint n) :: B := h2
        rcases ht with hep | hma
        · have hsn : setNodeType NodeType.apiEndpoint n = n := setNodeType_self hep
          rw [countApiEndpoint] at h ⊢
          rw [h1'] at h
          rw [h2', hsn]
          exact h
        · have hnone := no_apiEp_of_scan_master _ _ hsc hma
          have hAno : List.countP entryIsApiEndpoint A = 0 := by
            rw [List.countP_eq_zero]
            intro a ha
            have hmemA : a ∈ enumNodes k.k8sCluster.clusterInfo.nodePools := by
              rw [h1']
              exact List.mem_append.mpr (Or.inl ha)
            simpa [entryIsApiEndpoint] using hnone a hmemA
          have hBno : List.countP entryIsApiEndpoint B = 0 := by
            rw [List.countP_eq_zero]
            intro a ha
            have hmemB : a ∈ enumNodes k.k8sCluster.clusterInfo.nodePools := by
              rw [h1']
              exact List.mem_append.mpr (Or.inr (List.mem_cons_of_mem _ ha))
            simpa [entryIsApiEndpoint] using hnone a hmemB
          rw [countApiEndpoint, h2', List.countP_append, List.countP_cons, hAno, hBno]
          simp [entryIsApiEndpoint, setNodeType]
  · rw [resolveEndpoint_lb k hfl]
    exact h

/-- Counterexample for C4 as stated: a cluster already holding two api-endpoint
nodes still holds two after resolution. -/
theorem claim_C4_counterexample :
    ¬ countApiEndpoint (resolveEndpoint cexK4).2 ≤ 1 := by decide

/-- Witness for C4 on a concrete cluster with a single master node. -/
theorem claim_C4_witness : countApiEndpoint (resolveEndpoint wK4).2 ≤ 1 :=
  claim_C4 wK4 (by decide)

/-- C10 (amended): the working directory is Clean of the slash-joined
convention path and a deterministic function of the (name, hash) pair; when
name and hash contain no path separator it equals the literal convention path,
and when additionally the hashes contain no hyphen it is injective in the
pair.  Without those conditions distinct pairs can collide, through hyphen
ambiguity or through Clean. -/
theorem claim_C10 :
    (∀ ci : ClusterInfo, '/' ∉ ci.name → '/' ∉ ci.hash →
      workingDirectory ci
        = "services/kube-eleven/server/clusters/".data ++ (ci.name ++ '-' :: ci.hash)) ∧
    (∀ ci₁ ci₂ : ClusterInfo, ci₁.name = ci₂.name → ci₁.hash = ci₂.hash →
      workingDirectory ci₁ = workingDirectory ci₂) ∧
    (∀ ci₁ ci₂ : ClusterInfo,
      '/' ∉ ci₁.name → '/' ∉ ci₁.hash → '/' ∉ ci₂.name → '/' ∉ ci₂.hash →
      '-' ∉ ci₁.hash → '-' ∉ ci₂.hash →
      workingDirectory ci₁ = workingDirectory ci₂ →
      ci₁.name = ci₂.name ∧ ci₁.hash = ci₂.hash) := by
  refine ⟨fun ci hn hh => workingDirectory_eq ci hn hh, ?_, ?_⟩
  · intro ci1 ci2 h1 h2
    simp only [workingDirectory, clusterID, h1, h2]
  · intro ci1 ci2 hn1 hh1 hn2 hh2 hd1 hd2 heq
    rw [workingDirectory_eq ci1 hn1 hh1, workingDirectory_eq ci2 hn2 hh2] at heq
    exact append_sep_inj ci1.name ci2.name ci1.hash ci2.hash
      (List.append_cancel_left heq) hd1 hd2

/-- Counterexample for C10 as stated: two different (name, hash) pairs sharing
the concatenated identifier collide on the working directory. -/
theorem claim_C10_counterexample :
    workingDirectory cexInfoA = workingDirectory cexInfoB ∧
    (cexInfoA.name, cexInfoA.hash) ≠ (cexInfoB.name, cexInfoB.hash) := by decide

/-- Witness for C10: determinism on two infos agreeing on name and hash only. -/
theorem claim_C10_witness : workingDirectory wInfoA = workingDirectory wInfoB :=
  claim_C10.2.1 wInfoA wInfoB (by decide) (by decide)
